import Mathlib

/-!
Shallow embedding of the memory-management subsystem of the os_truth kernel
(src/kernel/memory.c), together with proofs of the specified properties.

Modelling conventions:
* Machine integers (uint32_t) are Nat; wrap-around subtraction and
  increment/decrement are made explicit (sub32, inc32, dec32) where the C
  code can overflow; bit masks use Nat bitwise operators exactly as in the
  source.
* Global mutable state (the two physical pools, the kernel virtual-address
  tracker, the page table reached through the self-map, the descriptor
  arrays, the arena headers stored at page starts, and the running thread)
  is collected in one explicit state record MemState that every operation
  threads through.
* Fatal control flow (a failing ASSERT or a PANIC, both active in this
  kernel build) is modelled as the result none of an Option; an ordinary
  NULL return is a some carrying the value none.  Locks and the interrupt
  enable/disable pair around the free-list splitting step are no-ops for a
  single observed execution and are elided.
* The page table is modelled as the map pte_mem from the 20-bit virtual
  page number (the index computed by pte_ptr through the self-map) to the
  32-bit entry value, plus the presence map pde_present for directory
  entries; the physical frame address that backs a page-table page is kept
  only in the pool bookkeeping.
-/

/-- Page size PG_SIZE, from the kernel headers (4096 bytes). -/
def PG_SIZE : Nat := 4096

/-- Start of the kernel heap, K_HEAP_START in memory.c. -/
def K_HEAP_START : Nat := 0xc0100000

/-- Modelled from the spec: DESC_CNT from memory.h (not under src/).  The
size classes are powers of two from 16 bytes with the largest equal to the
1024-byte large threshold, hence seven classes. -/
def DESC_CNT : Nat := 7

/-- Size in bytes of struct arena on the i386 target: a 4-byte pointer, a
4-byte count and a bool padded to 4 bytes. -/
def ARENA_SIZE : Nat := 12

/-- Wrap-around subtraction of 32-bit unsigned values. -/
def sub32 (a b : Nat) : Nat := (2 ^ 32 + a - b) % 2 ^ 32

/-- Wrap-around increment of a 32-bit unsigned value. -/
def inc32 (n : Nat) : Nat := (n + 1) % 2 ^ 32

/-- Wrap-around decrement of a 32-bit unsigned value. -/
def dec32 (n : Nat) : Nat := (n + (2 ^ 32 - 1)) % 2 ^ 32

/-- Modelled from the spec: bitmap_set from lib/kernel/bitmap.c (not under
src/): set or clear one bit of a capacity tracker. -/
def bitmap_set (bm : List Bool) (idx : Nat) (v : Bool) : List Bool :=
  bm.set idx v

/-- True when the cnt bits starting at index start all lie inside the
bitmap and are all free (false). -/
def bits_free (bm : List Bool) (start cnt : Nat) : Bool :=
  decide (start + cnt ≤ bm.length) &&
    (List.range cnt).all fun j => !bm.getD (start + j) true

/-- Modelled from the spec: bitmap_scan from lib/kernel/bitmap.c (not under
src/): scan for cnt contiguous free bits, returning the first start index
of such a run, or none when no run exists. -/
def bitmap_scan (bm : List Bool) (cnt : Nat) : Option Nat :=
  (List.range bm.length).find? fun i => bits_free bm i cnt

/-- Set cnt consecutive bits starting at start to v, as done by the
while loops over bitmap_set in memory.c. -/
def set_run (bm : List Bool) (start cnt : Nat) (v : Bool) : List Bool :=
  match cnt with
  | 0 => bm
  | c + 1 => set_run (bm.set start v) (start + 1) c v

/-- PDE_IDX macro from memory.c. -/
def PDE_IDX (addr : Nat) : Nat := (addr &&& 0xffc00000) >>> 22

/-- PTE_IDX macro from memory.c. -/
def PTE_IDX (addr : Nat) : Nat := (addr &&& 0x003ff000) >>> 12

/-- Index of the page-table entry governing addr in the flat model of the
page table: the entry that pte_ptr reaches through the self-map. -/
def vpn (addr : Nat) : Nat := PDE_IDX addr * 1024 + PTE_IDX addr

/-- Pool selector, enum pool_flags from memory.h (PF_KERNEL = 1,
PF_USER = 2 in the header; only the distinction matters). -/
inductive pool_flags where
  | PF_KERNEL
  | PF_USER
deriving DecidableEq, Repr

/-- Physical memory pool, struct pool from memory.c (the lock is elided). -/
structure pool where
  pool_bitmap : List Bool
  phy_addr_start : Nat
  pool_size : Nat
deriving Repr

/-- Reference to a size-class descriptor: a pointer into either the kernel
array k_block_descs (user = false) or the running task array u_block_desc
(user = true). -/
structure desc_ptr where
  user : Bool
  idx : Nat
deriving DecidableEq, Repr

/-- Arena header, struct arena from memory.c. -/
structure arena where
  desc : Option desc_ptr
  cnt : Nat
  large : Bool
deriving Repr

/-- Size-class descriptor, struct mem_block_desc from memory.h; the free
list holds the addresses of the free blocks (the intrusive linkage lives
inside the block storage, so a block and its node are the same address). -/
structure mem_block_desc where
  block_size : Nat
  blocks_per_arena : Nat
  free_list : List Nat
deriving Repr

instance : Inhabited mem_block_desc := ⟨⟨0, 0, []⟩⟩

/-- The parts of struct task_struct that memory.c reads: whether the task
has a private address space (pgdir distinct from NULL), its virtual
address tracker and its private descriptor array. -/
structure task_struct where
  pgdir : Bool
  userprog_vaddr_start : Nat
  userprog_vaddr_bm : List Bool
  u_block_desc : List mem_block_desc
deriving Repr

/-- The global state of the subsystem. -/
structure MemState where
  kernel_pool : pool
  user_pool : pool
  kernel_vaddr_start : Nat
  kernel_vaddr_bm : List Bool
  k_block_descs : List mem_block_desc
  cur : task_struct
  pde_present : Nat → Bool
  pte_mem : Nat → Nat
  arenas : Nat → arena

/-- Pointwise update of a map, the model of one memory write. -/
def upd {α : Type} (f : Nat → α) (k : Nat) (v : α) : Nat → α :=
  fun x => if x = k then v else f x

/-- Zero all table entries of one page directory slot, the model of the
memset that clears a freshly allocated page-table page. -/
def clear_dir (f : Nat → Nat) (pdi : Nat) : Nat → Nat :=
  fun v => if v / 1024 = pdi then 0 else f v

/-- Pool reached by the mem_pool pointer for a given flag, the expression
pf and PF_KERNEL in memory.c. -/
def pool_of (pf : pool_flags) (st : MemState) : pool :=
  match pf with
  | .PF_KERNEL => st.kernel_pool
  | .PF_USER => st.user_pool

/-- Write back the pool reached by the mem_pool pointer. -/
def set_pool (pf : pool_flags) (p : pool) (st : MemState) : MemState :=
  match pf with
  | .PF_KERNEL => { st with kernel_pool := p }
  | .PF_USER => { st with user_pool := p }

/-- palloc from memory.c: allocate one physical frame from a pool. -/
def palloc (m_pool : pool) : Option Nat × pool :=
  match bitmap_scan m_pool.pool_bitmap 1 with
  | none => (none, m_pool)
  | some bit_idx =>
    (some (bit_idx * PG_SIZE + m_pool.phy_addr_start),
     { m_pool with pool_bitmap := bitmap_set m_pool.pool_bitmap bit_idx true })

/-- page_table_add from memory.c.  The written entry carries
PG_US_U, PG_RW_W and PG_P_1, that is the value 7 in the low bits.  In the
directory-absent branch a fresh kernel frame backs the new page table,
whose entries the memset clears; the frame address itself lives only in
the directory entry, which the model tracks as a presence bit. -/
def page_table_add (vaddr page_phyaddr : Nat) (st : MemState) : Option MemState :=
  if st.pde_present (PDE_IDX vaddr) then
    if st.pte_mem (vpn vaddr) &&& 1 = 1 then
      none
    else
      some { st with pte_mem := upd st.pte_mem (vpn vaddr) (page_phyaddr ||| 7) }
  else
    let pr := palloc st.kernel_pool
    let st1 : MemState := { st with
      kernel_pool := pr.2,
      pde_present := upd st.pde_present (PDE_IDX vaddr) true,
      pte_mem := clear_dir st.pte_mem (PDE_IDX vaddr) }
    some { st1 with pte_mem := upd st1.pte_mem (vpn vaddr) (page_phyaddr ||| 7) }

/-- vaddr_get from memory.c: reserve pg_cnt virtual pages in the tracker
selected by pf. -/
def vaddr_get (pf : pool_flags) (pg_cnt : Nat) (st : MemState) :
    Option (Option Nat × MemState) :=
  match pf with
  | .PF_KERNEL =>
    match bitmap_scan st.kernel_vaddr_bm pg_cnt with
    | none => some (none, st)
    | some bit_idx_start =>
      some (some (st.kernel_vaddr_start + bit_idx_start * PG_SIZE),
        { st with kernel_vaddr_bm := set_run st.kernel_vaddr_bm bit_idx_start pg_cnt true })
  | .PF_USER =>
    match bitmap_scan st.cur.userprog_vaddr_bm pg_cnt with
    | none => some (none, st)
    | some bit_idx_start =>
      let vaddr_start := st.cur.userprog_vaddr_start + bit_idx_start * PG_SIZE
      if vaddr_start < 0xc0000000 - PG_SIZE then
        some (some vaddr_start,
          { st with cur := { st.cur with
            userprog_vaddr_bm := set_run st.cur.userprog_vaddr_bm bit_idx_start pg_cnt true } })
      else none

/-- The frame-allocation and mapping loop of malloc_page: a true result
means every page got a frame, a false result is the early NULL return
after a palloc failure, which rolls nothing back. -/
def malloc_page_loop (pf : pool_flags) (vaddr cnt : Nat) (st : MemState) :
    Option (Bool × MemState) :=
  match cnt with
  | 0 => some (true, st)
  | c + 1 =>
    match palloc (pool_of pf st) with
    | (none, _) => some (false, st)
    | (some page_phyaddr, p) =>
      match page_table_add vaddr page_phyaddr (set_pool pf p st) with
      | none => none
      | some st2 => malloc_page_loop pf (vaddr + PG_SIZE) c st2

/-- malloc_page from memory.c. -/
def malloc_page (pf : pool_flags) (pg_cnt : Nat) (st : MemState) :
    Option (Option Nat × MemState) :=
  if 0 < pg_cnt ∧ pg_cnt < 3840 then
    match vaddr_get pf pg_cnt st with
    | none => none
    | some (none, st1) => some (none, st1)
    | some (some vaddr_start, st1) =>
      match malloc_page_loop pf vaddr_start pg_cnt st1 with
      | none => none
      | some (false, st2) => some (none, st2)
      | some (true, st2) => some (some vaddr_start, st2)
  else none

/-- Tail of get_a_page after the tracker bit is set: allocate one frame
and install the mapping. -/
def get_a_page_tail (pf : pool_flags) (vaddr : Nat) (st : MemState) :
    Option (Option Nat × MemState) :=
  match palloc (pool_of pf st) with
  | (none, _) => some (none, st)
  | (some page_phyaddr, p) =>
    match page_table_add vaddr page_phyaddr (set_pool pf p st) with
    | none => none
    | some st2 => some (some vaddr, st2)

/-- get_a_page from memory.c: back one already-reserved virtual address
with a frame of the pf pool.  Mixing a user task with the kernel pool or a
kernel thread with the user pool hits the PANIC branch. -/
def get_a_page (pf : pool_flags) (vaddr : Nat) (st : MemState) :
    Option (Option Nat × MemState) :=
  if st.cur.pgdir ∧ pf = .PF_USER then
    let bit_idx := sub32 vaddr st.cur.userprog_vaddr_start / PG_SIZE
    if 0 < bit_idx then
      get_a_page_tail pf vaddr
        { st with cur := { st.cur with
          userprog_vaddr_bm := bitmap_set st.cur.userprog_vaddr_bm bit_idx true } }
    else none
  else if ¬st.cur.pgdir ∧ pf = .PF_KERNEL then
    let bit_idx := sub32 vaddr st.kernel_vaddr_start / PG_SIZE
    if 0 < bit_idx then
      get_a_page_tail pf vaddr
        { st with kernel_vaddr_bm := bitmap_set st.kernel_vaddr_bm bit_idx true }
    else none
  else none

/-- addr_v2p from memory.c: read the page-table entry, mask the attribute
bits, add the low 12 bits of the virtual address. -/
def addr_v2p (vaddr : Nat) (st : MemState) : Nat :=
  (st.pte_mem (vpn vaddr) &&& 0xfffff000) + (vaddr &&& 0x00000fff)

/-- block_desc_init from memory.c: the descriptor array it fills, block
sizes doubling from 16 bytes, blocks_per_arena computed from the page size
minus the arena header, free lists empty. -/
def block_desc_init : List mem_block_desc :=
  (List.range DESC_CNT).map fun desc_idx =>
    { block_size := 16 * 2 ^ desc_idx,
      blocks_per_arena := (PG_SIZE - ARENA_SIZE) / (16 * 2 ^ desc_idx),
      free_list := [] }

/-- Descriptor array a desc_ptr with the given owner flag points into:
k_block_descs for the kernel, u_block_desc of the running task for a
user process. -/
def descs_of (u : Bool) (st : MemState) : List mem_block_desc :=
  if u then st.cur.u_block_desc else st.k_block_descs

/-- Replace the free list of descriptor idx of the given owner. -/
def set_free_list (u : Bool) (idx : Nat) (fl : List Nat) (st : MemState) : MemState :=
  let ds := descs_of u st
  let d := ds.getD idx default
  let ds2 := ds.set idx { d with free_list := fl }
  if u then { st with cur := { st.cur with u_block_desc := ds2 } }
  else { st with k_block_descs := ds2 }

/-- Write an arena header at page-aligned address a. -/
def set_arena (a : Nat) (m : arena) (st : MemState) : MemState :=
  { st with arenas := fun x => if x = a then m else st.arenas x }

/-- Block size recorded in the descriptor an arena header points at; the
source reads it as a to desc to block_size.  A NULL descriptor pointer
would fault in C; the model returns 0 there, and no verified path reads
it. -/
def desc_block_size (st : MemState) (a : Nat) : Nat :=
  match (st.arenas a).desc with
  | some p => ((descs_of p.user st).getD p.idx default).block_size
  | none => 0

/-- arena2block from memory.c: address of block idx inside arena a. -/
def arena2block (st : MemState) (a idx : Nat) : Nat :=
  a + ARENA_SIZE + idx * desc_block_size st a

/-- block2arena from memory.c: mask a block address down to its page. -/
def block2arena (b : Nat) : Nat := b &&& 0xfffff000

/-- Large branch of sys_malloc: allocate whole pages, stamp the header,
return the address just past it. -/
def sys_malloc_large (PF : pool_flags) (size : Nat) (st : MemState) :
    Option (Option Nat × MemState) :=
  let page_cnt := (size + ARENA_SIZE + PG_SIZE - 1) / PG_SIZE
  match malloc_page PF page_cnt st with
  | none => none
  | some (none, st1) => some (none, st1)
  | some (some a, st1) =>
    some (some (a + ARENA_SIZE),
      set_arena a { desc := none, cnt := page_cnt, large := true } st1)

/-- The free-list splitting loop of sys_malloc: append the blocks of a
fresh arena, block_idx counting up, n blocks remaining; the ASSERT that a
block is not yet on the list is fatal when violated. -/
def append_blocks (u : Bool) (desc_idx a block_idx n : Nat) (st : MemState) :
    Option MemState :=
  match n with
  | 0 => some st
  | m + 1 =>
    let b := arena2block st a block_idx
    let fl := ((descs_of u st).getD desc_idx default).free_list
    if fl.contains b then none
    else append_blocks u desc_idx a (block_idx + 1) m
      (set_free_list u desc_idx (fl ++ [b]) st)

/-- Final step of the small branch of sys_malloc: pop the front block of
the free list (the list primitive is fatal on an empty list), decrement
the free count of the arena recovered from the block address, return the
block.  The memset of the block body touches no modelled state. -/
def sys_malloc_pop (u : Bool) (desc_idx : Nat) (st : MemState) :
    Option (Option Nat × MemState) :=
  match ((descs_of u st).getD desc_idx default).free_list with
  | [] => none
  | b :: rest =>
    let st1 := set_free_list u desc_idx rest st
    let a := block2arena b
    let m := st1.arenas a
    some (some b, set_arena a { m with cnt := dec32 m.cnt } st1)

/-- Small branch of sys_malloc: pick the first size class whose block size
is at least the request, build a fresh arena when the class free list is
empty, then pop a block. -/
def sys_malloc_small (PF : pool_flags) (u : Bool) (size : Nat) (st : MemState) :
    Option (Option Nat × MemState) :=
  let desc_idx := (descs_of u st).findIdx fun d => size ≤ d.block_size
  if ((descs_of u st).getD desc_idx default).free_list.isEmpty then
    match malloc_page PF 1 st with
    | none => none
    | some (none, st1) => some (none, st1)
    | some (some a, st1) =>
      let d := (descs_of u st1).getD desc_idx default
      let st2 := set_arena a
        { desc := some { user := u, idx := desc_idx }, cnt := d.blocks_per_arena,
          large := false } st1
      match append_blocks u desc_idx a 0 d.blocks_per_arena st2 with
      | none => none
      | some st3 => sys_malloc_pop u desc_idx st3
  else sys_malloc_pop u desc_idx st

/-- sys_malloc from memory.c. -/
def sys_malloc (size : Nat) (st : MemState) : Option (Option Nat × MemState) :=
  let PF : pool_flags := if st.cur.pgdir then .PF_USER else .PF_KERNEL
  let pool_size := if st.cur.pgdir then st.user_pool.pool_size else st.kernel_pool.pool_size
  if ¬(0 < size ∧ size < pool_size) then some (none, st)
  else if 1024 < size then sys_malloc_large PF size st
  else sys_malloc_small PF st.cur.pgdir size st

/-- pfree from memory.c: return one frame to the pool owning its address. -/
def pfree (pg_phy_addr : Nat) (st : MemState) : MemState :=
  if st.user_pool.phy_addr_start ≤ pg_phy_addr then
    let bit_idx := sub32 pg_phy_addr st.user_pool.phy_addr_start / PG_SIZE
    let bm := bitmap_set st.user_pool.pool_bitmap bit_idx false
    { st with user_pool := { st.user_pool with pool_bitmap := bm } }
  else
    let bit_idx := sub32 pg_phy_addr st.kernel_pool.phy_addr_start / PG_SIZE
    let bm := bitmap_set st.kernel_pool.pool_bitmap bit_idx false
    { st with kernel_pool := { st.kernel_pool with pool_bitmap := bm } }

/-- page_table_pte_remove from memory.c: clear only the present bit of the
entry; the invlpg is invisible to the model. -/
def page_table_pte_remove (vaddr : Nat) (st : MemState) : MemState :=
  let pte := upd st.pte_mem (vpn vaddr) (st.pte_mem (vpn vaddr) &&& 0xfffffffe)
  { st with pte_mem := pte }

/-- vaddr_remove from memory.c: clear the run of virtual-page bits. -/
def vaddr_remove (pf : pool_flags) (vaddr pg_cnt : Nat) (st : MemState) : MemState :=
  match pf with
  | .PF_KERNEL =>
    let bm := set_run st.kernel_vaddr_bm (sub32 vaddr st.kernel_vaddr_start / PG_SIZE) pg_cnt false
    { st with kernel_vaddr_bm := bm }
  | .PF_USER =>
    let bm := set_run st.cur.userprog_vaddr_bm (sub32 vaddr st.cur.userprog_vaddr_start / PG_SIZE) pg_cnt false
    { st with cur := { st.cur with userprog_vaddr_bm := bm } }

/-- Page loop of mfree_page for frames of the user pool; note the source
checks pg_phy_addr AND PG_SIZE here where the kernel branch checks
pg_phy_addr MOD PG_SIZE, so this assertion tests bit 12 of the frame
address instead of alignment. -/
def mfree_loop_user (vaddr n : Nat) (st : MemState) : Option MemState :=
  match n with
  | 0 => some st
  | m + 1 =>
    let phy := addr_v2p vaddr st
    if phy &&& PG_SIZE = 0 ∧ st.user_pool.phy_addr_start ≤ phy then
      mfree_loop_user (vaddr + PG_SIZE) m (page_table_pte_remove vaddr (pfree phy st))
    else none

/-- Page loop of mfree_page for frames of the kernel pool. -/
def mfree_loop_kernel (vaddr n : Nat) (st : MemState) : Option MemState :=
  match n with
  | 0 => some st
  | m + 1 =>
    let phy := addr_v2p vaddr st
    if phy % PG_SIZE = 0 ∧ st.kernel_pool.phy_addr_start ≤ phy ∧
        phy < st.user_pool.phy_addr_start then
      mfree_loop_kernel (vaddr + PG_SIZE) m (page_table_pte_remove vaddr (pfree phy st))
    else none

/-- mfree_page from memory.c: free pg_cnt mapped pages starting at vaddr,
then release the virtual run. -/
def mfree_page (pf : pool_flags) (vaddr pg_cnt : Nat) (st : MemState) :
    Option MemState :=
  if 1 ≤ pg_cnt ∧ vaddr % PG_SIZE = 0 then
    let phy := addr_v2p vaddr st
    if phy % PG_SIZE = 0 ∧ 0x102000 ≤ phy then
      if st.user_pool.phy_addr_start ≤ phy then
        (mfree_loop_user vaddr pg_cnt st).map (vaddr_remove pf vaddr pg_cnt)
      else
        (mfree_loop_kernel vaddr pg_cnt st).map (vaddr_remove pf vaddr pg_cnt)
    else none
  else none

/-- The unlink loop of sys_free: remove every block of arena a from the
free list of its class; the ASSERT that each block is on the list is
fatal when violated. -/
def unlink_blocks (u : Bool) (desc_idx a block_idx n : Nat) (st : MemState) :
    Option MemState :=
  match n with
  | 0 => some st
  | m + 1 =>
    let b := arena2block st a block_idx
    let fl := ((descs_of u st).getD desc_idx default).free_list
    if fl.contains b then
      unlink_blocks u desc_idx a (block_idx + 1) m
        (set_free_list u desc_idx (fl.erase b) st)
    else none

/-- sys_free from memory.c. -/
def sys_free (ptr : Nat) (st : MemState) : Option MemState :=
  if ptr = 0 then none
  else
    let PF : pool_flags := if st.cur.pgdir then .PF_USER else .PF_KERNEL
    if ¬st.cur.pgdir ∧ ptr < K_HEAP_START then none
    else
      let a := block2arena ptr
      let m := st.arenas a
      if m.desc = none ∧ m.large = true then
        mfree_page PF a m.cnt st
      else
        match m.desc with
        | none => none
        | some dp =>
          let fl := ((descs_of dp.user st).getD dp.idx default).free_list
          let st1 := set_free_list dp.user dp.idx (fl ++ [ptr]) st
          let cnt1 := inc32 m.cnt
          let st2 := set_arena a { m with cnt := cnt1 } st1
          let B := ((descs_of dp.user st2).getD dp.idx default).blocks_per_arena
          if cnt1 = B then
            match unlink_blocks dp.user dp.idx a 0 B st2 with
            | none => none
            | some st3 => mfree_page PF a 1 st3
          else some st2

/-- Virtual-address tracker bitmap used by vaddr_get for a flag: the
global kernel tracker or the running task private tracker. -/
def vbm_of (pf : pool_flags) (st : MemState) : List Bool :=
  match pf with
  | .PF_KERNEL => st.kernel_vaddr_bm
  | .PF_USER => st.cur.userprog_vaddr_bm

/-- Base virtual address of the tracker used by vaddr_get for a flag. -/
def vstart_of (pf : pool_flags) (st : MemState) : Nat :=
  match pf with
  | .PF_KERNEL => st.kernel_vaddr_start
  | .PF_USER => st.cur.userprog_vaddr_start

/-- Size class picked by the small branch of sys_malloc over the array
built by block_desc_init: the first descriptor whose block size is at
least the request. -/
def chosen_class (size : Nat) : Nat :=
  block_desc_init.findIdx fun d => size ≤ d.block_size

/-- Block size of the class sys_malloc picks for a request. -/
def chosen_block_size (size : Nat) : Nat :=
  (block_desc_init.getD (chosen_class size) default).block_size

/-- Base test state: a kernel thread running, both pools eight frames
large and empty, fresh descriptor arrays, all directory entries present,
an empty page table. -/
def st0 : MemState :=
  { kernel_pool := { pool_bitmap := List.replicate 8 false, phy_addr_start := 0x200000, pool_size := 8 * PG_SIZE },
    user_pool := { pool_bitmap := List.replicate 8 false, phy_addr_start := 0x1000000, pool_size := 8 * PG_SIZE },
    kernel_vaddr_start := 0xc0100000,
    kernel_vaddr_bm := List.replicate 8 false,
    k_block_descs := block_desc_init,
    cur := { pgdir := false, userprog_vaddr_start := 0x8048000,
             userprog_vaddr_bm := List.replicate 8 false, u_block_desc := block_desc_init },
    pde_present := fun _ => true,
    pte_mem := fun _ => 0,
    arenas := fun _ => { desc := none, cnt := 0, large := false } }

/-- Test state for the user-pool free path: a user process running, and
the first user frame already taken so that the next frame handed out is
frame 1, whose physical address has bit 12 set. -/
def stUodd : MemState :=
  { st0 with
    user_pool := { pool_bitmap := true :: List.replicate 7 false,
                   phy_addr_start := 0x1000000, pool_size := 8 * PG_SIZE },
    cur := { st0.cur with pgdir := true } }

/-- State reached from st0 by installing the mapping used in the
round-trip witness. -/
def stC1 : MemState :=
  { st0 with pte_mem := upd st0.pte_mem (vpn 0xc0100123) (0x205000 ||| 7) }

/-- Kernel test state whose kernel pool has exactly one free frame, for
the partial-failure witness. -/
def stOneFrame : MemState :=
  { st0 with kernel_pool := { pool_bitmap := [true, true, false, true],
                              phy_addr_start := 0x200000, pool_size := 4 * PG_SIZE } }

/-- Write back the tracker bitmap that vaddr_get manipulates for a
flag. -/
def set_vbm (pf : pool_flags) (bm : List Bool) (st : MemState) : MemState :=
  match pf with
  | .PF_KERNEL => { st with kernel_vaddr_bm := bm }
  | .PF_USER => { st with cur := { st.cur with userprog_vaddr_bm := bm } }

/-- Kernel test state whose kernel virtual tracker is exhausted. -/
def stVFull : MemState :=
  { st0 with kernel_vaddr_bm := List.replicate 4 true }

/-- Masking with a block of high bits extracts a middle digit: the value
of x AND (2 pow a minus 2 pow b). -/
theorem land_mask (x a b : Nat) (h : b ≤ a) :
    x &&& (2 ^ a - 2 ^ b) = x % 2 ^ a / 2 ^ b * 2 ^ b := by
  have hmask : (2 : Nat) ^ a - 2 ^ b = (2 ^ (a - b) - 1) <<< b := by
    rw [Nat.shiftLeft_eq, Nat.sub_mul, one_mul, ← Nat.pow_add]
    congr 2
    omega
  have hrhs : x % 2 ^ a / 2 ^ b * 2 ^ b = ((x % 2 ^ a) >>> b) <<< b := by
    rw [Nat.shiftRight_eq_div_pow, Nat.shiftLeft_eq]
  rw [hmask, hrhs]
  apply Nat.eq_of_testBit_eq
  intro i
  rw [Nat.testBit_land, Nat.testBit_shiftLeft, Nat.testBit_shiftLeft,
    Nat.testBit_shiftRight, Nat.testBit_two_pow_sub_one, Nat.testBit_mod_two_pow]
  by_cases hbi : b ≤ i
  · have hadd : b + (i - b) = i := by omega
    rw [hadd]
    have h2 : decide (i - b < a - b) = decide (i < a) :=
      decide_eq_decide.mpr (by omega)
    rw [h2]
    simp [ge_iff_le, hbi, Bool.and_comm, Bool.and_left_comm]
  · simp [ge_iff_le, hbi]

/-- The pte mask 0xfffff000 extracts the frame address of an entry. -/
theorem land_fffff000 (x : Nat) : x &&& 0xfffff000 = x % 2 ^ 32 / 4096 * 4096 := by
  have h := land_mask x 32 12 (by omega)
  norm_num at h
  exact h

/-- The low mask 0xfff extracts the page offset. -/
theorem land_fff (x : Nat) : x &&& 0xfff = x % 4096 := by
  have h := Nat.and_pow_two_sub_one_eq_mod x 12
  norm_num at h
  exact h

/-- The directory-index mask. -/
theorem PDE_IDX_eq (x : Nat) : PDE_IDX x = x % 2 ^ 32 / 2 ^ 22 := by
  have h := land_mask x 32 22 (by omega)
  norm_num at h
  rw [PDE_IDX]
  norm_num
  rw [h, Nat.shiftRight_eq_div_pow]
  rw [Nat.mul_div_cancel _ (by norm_num : (0:Nat) < 4194304)]

/-- The table-index mask. -/
theorem PTE_IDX_eq (x : Nat) : PTE_IDX x = x % 2 ^ 22 / 2 ^ 12 := by
  have h := land_mask x 22 12 (by omega)
  norm_num at h
  rw [PTE_IDX]
  norm_num
  rw [h, Nat.shiftRight_eq_div_pow]
  rw [Nat.mul_div_cancel _ (by norm_num : (0:Nat) < 4096)]

/-- The flat page-table index computed through the self-map is the
virtual page number of the address. -/
theorem vpn_eq (x : Nat) : vpn x = x % 2 ^ 32 / 4096 := by
  rw [vpn, PDE_IDX_eq, PTE_IDX_eq]
  have h1 : x % 2 ^ 22 = x % 2 ^ 32 % 2 ^ 22 :=
    (Nat.mod_mod_of_dvd x (by norm_num)).symm
  rw [h1]
  have h2 : x % 2 ^ 32 % 2 ^ 22 / 2 ^ 12 = x % 2 ^ 32 / 2 ^ 12 % 2 ^ 10 := by
    have := Nat.mod_mul_right_div_self (x % 2 ^ 32) (2 ^ 12) (2 ^ 10)
    norm_num at this ⊢
    exact this
  rw [h2]
  have h3 : x % 2 ^ 32 / 2 ^ 22 = x % 2 ^ 32 / 2 ^ 12 / 2 ^ 10 := by
    rw [Nat.div_div_eq_div_mul]
    norm_num
  rw [h3]
  omega

/-- An aligned frame address absorbs the attribute bits. -/
theorem aligned_or7 (p : Nat) (hp : p % 4096 = 0) : p ||| 7 = p + 7 := by
  have hlt : (7 : Nat) < 2 ^ 12 := by norm_num
  have hmul := Nat.mul_add_lt_is_or hlt (p / 2 ^ 12)
  have hself : 2 ^ 12 * (p / 2 ^ 12) = p := by omega
  rw [hself] at hmul
  exact hmul.symm

/-- Reading back a written page-table entry recovers the aligned frame
address: the attribute bits fall to the mask. -/
theorem pte_mask_roundtrip (p : Nat) (hp : p % 4096 = 0) (h32 : p < 2 ^ 32) :
    (p ||| 7) &&& 0xfffff000 = p := by
  rw [aligned_or7 p hp, land_fffff000]
  have h1 : (p + 7) % 2 ^ 32 = p + 7 := Nat.mod_eq_of_lt (by omega)
  rw [h1]
  omega

/-- A written entry always carries the present bit. -/
theorem pte_present_bit (p : Nat) : (p ||| 7) &&& 1 = 1 := by
  rw [Nat.and_one_is_mod]
  simp [Nat.or_mod_two_eq_one]

/-- Virtual page numbers of consecutive pages below the address-space top
are consecutive. -/
theorem vpn_add (v j : Nat) (h : v + j * 4096 + 4096 ≤ 2 ^ 32) :
    vpn (v + j * 4096) = v / 4096 + j := by
  rw [vpn_eq, Nat.mod_eq_of_lt (by omega)]
  omega

/-- Reading an updated map at the written key gives the new value. -/
theorem upd_self {a : Type} (f : Nat → a) (k : Nat) (v : a) : upd f k v k = v := by
  simp [upd]

/-- Reading an updated map away from the written key gives the old value. -/
theorem upd_other {a : Type} (f : Nat → a) (k : Nat) (v : a) (x : Nat)
    (h : x ≠ k) : upd f k v x = f x := by
  simp [upd, h]

/-- C1: for every page-aligned physical address p and every virtual
address v, translating v with addr_v2p immediately after page_table_add
installed the mapping from v to p returns the frame of p combined with
the original low 12 bits of v. -/
theorem addr_v2p_roundtrip (st st' : MemState) (v p : Nat)
    (hp : p % PG_SIZE = 0) (hp32 : p < 2 ^ 32)
    (hadd : page_table_add v p st = some st') :
    addr_v2p v st' = p + v % PG_SIZE := by
  have hp4096 : p % 4096 = 0 := hp
  rw [page_table_add] at hadd
  split at hadd
  · split at hadd
    · exact absurd hadd (by simp)
    · rw [Option.some.injEq] at hadd
      subst hadd
      rw [addr_v2p]
      simp only [upd_self]
      rw [pte_mask_roundtrip p hp4096 hp32, land_fff]
      rfl
  · rw [Option.some.injEq] at hadd
    subst hadd
    rw [addr_v2p]
    simp only [upd_self]
    rw [pte_mask_roundtrip p hp4096 hp32, land_fff]
    rfl

/-- Witness for the round-trip theorem at a concrete mapping. -/
theorem addr_v2p_roundtrip_witness :
    (0x205000 : Nat) % PG_SIZE = 0 ∧ (0x205000 : Nat) < 2 ^ 32 ∧
      addr_v2p 0xc0100123 stC1 = 0x205000 + 0xc0100123 % PG_SIZE :=
  ⟨by decide, by norm_num,
    addr_v2p_roundtrip st0 stC1 0xc0100123 0x205000 (by decide) (by norm_num) rfl⟩

/-- C8: sys_malloc rejects a request of size zero, or of at least the
byte capacity of the selected pool, returning NULL and leaving the whole
allocator state unchanged. -/
theorem sys_malloc_guard (st : MemState) (size : Nat)
    (h : size = 0 ∨
      (if st.cur.pgdir then st.user_pool.pool_size else st.kernel_pool.pool_size) ≤ size) :
    sys_malloc size st = some (none, st) := by
  have hneg : ¬(0 < size ∧
      size < (if st.cur.pgdir then st.user_pool.pool_size else st.kernel_pool.pool_size)) := by
    rcases h with h | h
    · omega
    · intro hc
      omega
  simp only [sys_malloc]
  rw [if_pos hneg]

/-- Witness for the rejection theorem at size zero. -/
theorem sys_malloc_guard_witness :
    ((0 : Nat) = 0 ∨
      (if st0.cur.pgdir then st0.user_pool.pool_size else st0.kernel_pool.pool_size) ≤ 0) ∧
      sys_malloc 0 st0 = some (none, st0) :=
  ⟨Or.inl rfl, sys_malloc_guard st0 0 (Or.inl rfl)⟩

/-- C4: a request of exactly the 1024-byte threshold (and any smaller
accepted request) takes the small size-class branch of sys_malloc, and a
request of 1025 bytes or more takes the whole-page large branch. -/
theorem sys_malloc_boundary (st : MemState) (size : Nat) :
    (size ≤ 1024 → 0 < size →
      size < (if st.cur.pgdir then st.user_pool.pool_size else st.kernel_pool.pool_size) →
      sys_malloc size st =
        sys_malloc_small (if st.cur.pgdir then .PF_USER else .PF_KERNEL) st.cur.pgdir size st) ∧
    (1025 ≤ size →
      size < (if st.cur.pgdir then st.user_pool.pool_size else st.kernel_pool.pool_size) →
      sys_malloc size st =
        sys_malloc_large (if st.cur.pgdir then .PF_USER else .PF_KERNEL) size st) := by
  constructor
  · intro hsmall hpos hcap
    simp only [sys_malloc]
    rw [if_neg (not_not_intro ⟨hpos, hcap⟩), if_neg (by omega)]
  · intro hlarge hcap
    simp only [sys_malloc]
    rw [if_neg (not_not_intro ⟨by omega, hcap⟩), if_pos (by omega)]

/-- Witness for the branch-boundary theorem at sizes 1024 and 1025. -/
theorem sys_malloc_boundary_witness :
    ((1024 : Nat) ≤ 1024 ∧ (0 : Nat) < 1024 ∧
      1024 < (if st0.cur.pgdir then st0.user_pool.pool_size else st0.kernel_pool.pool_size) ∧
      sys_malloc 1024 st0 =
        sys_malloc_small (if st0.cur.pgdir then .PF_USER else .PF_KERNEL) st0.cur.pgdir 1024 st0) ∧
    ((1025 : Nat) ≤ 1025 ∧
      1025 < (if st0.cur.pgdir then st0.user_pool.pool_size else st0.kernel_pool.pool_size) ∧
      sys_malloc 1025 st0 =
        sys_malloc_large (if st0.cur.pgdir then .PF_USER else .PF_KERNEL) 1025 st0) :=
  ⟨⟨by decide, by decide, by decide,
    (sys_malloc_boundary st0 1024).1 (by decide) (by decide) (by decide)⟩,
   ⟨by decide, by decide,
    (sys_malloc_boundary st0 1025).2 (by decide) (by decide)⟩⟩

/-- C10: when the caller context matches the requested pool but the
virtual address lies on the first page of the owner range (computed bit
index zero), the assertion that the bit index is positive fails and
get_a_page halts fatally: only pages strictly after the first page of the
tracker range can be backed this way. -/
theorem get_a_page_first_page_fatal (st : MemState) (vaddr : Nat) :
    (st.cur.pgdir = true → sub32 vaddr st.cur.userprog_vaddr_start / PG_SIZE = 0 →
      get_a_page .PF_USER vaddr st = none) ∧
    (st.cur.pgdir = false → sub32 vaddr st.kernel_vaddr_start / PG_SIZE = 0 →
      get_a_page .PF_KERNEL vaddr st = none) := by
  constructor
  · intro hp hb
    simp only [get_a_page]
    rw [if_pos ⟨hp, trivial⟩, if_neg (by omega)]
  · intro hp hb
    simp only [get_a_page]
    rw [if_neg (by simp [hp]), if_pos ⟨by simp [hp], trivial⟩, if_neg (by omega)]

/-- Witness for the first-page fatality at the base of the kernel heap. -/
theorem get_a_page_first_page_fatal_witness :
    st0.cur.pgdir = false ∧ sub32 0xc0100000 st0.kernel_vaddr_start / PG_SIZE = 0 ∧
      get_a_page .PF_KERNEL 0xc0100000 st0 = none :=
  ⟨rfl, by decide,
    (get_a_page_first_page_fatal st0 0xc0100000).2 rfl (by decide)⟩

/-- A first-fit search with a weaker predicate never lands later. -/
theorem findIdx_mono {α : Type} (l : List α) (p q : α → Bool)
    (h : ∀ a, p a = true → q a = true) : l.findIdx q ≤ l.findIdx p := by
  induction l with
  | nil => simp
  | cons a t ih =>
    by_cases hq : q a = true
    · simp [List.findIdx_cons, hq]
    · have hp : p a = false := by
        cases hpa : p a
        · rfl
        · exact absurd (h a hpa) hq
      have hq2 : q a = false := by
        cases hqa : q a
        · rfl
        · exact absurd hqa hq
      simp [List.findIdx_cons, hp, hq2]
      omega

/-- C9: for requested sizes s1 below s2, both at or below the 1024-byte
threshold, the size class sys_malloc picks for s1 (first class of
block_desc_init whose block size is at least the request) has block size
at most that of the class picked for s2. -/
theorem size_class_monotone (s1 s2 : Nat) (h12 : s1 < s2) (h2 : s2 ≤ 1024) :
    chosen_block_size s1 ≤ chosen_block_size s2 := by
  have hmono : chosen_class s1 ≤ chosen_class s2 := by
    apply findIdx_mono
    intro d hd
    simp only [decide_eq_true_eq] at hd ⊢
    omega
  have htop : chosen_class s2 ≤ chosen_class 1024 := by
    apply findIdx_mono
    intro d hd
    simp only [decide_eq_true_eq] at hd ⊢
    omega
  have hc1024 : chosen_class 1024 = 6 := by decide
  have hsizes : ∀ j, j < 7 → ∀ i, i ≤ j →
      (block_desc_init.getD i default).block_size ≤
        (block_desc_init.getD j default).block_size := by decide
  exact hsizes (chosen_class s2) (by omega) (chosen_class s1) hmono

/-- Witness for size-class monotonicity at 40 and 100 bytes. -/
theorem size_class_monotone_witness :
    (40 : Nat) < 100 ∧ (100 : Nat) ≤ 1024 ∧ chosen_block_size 40 ≤ chosen_block_size 100 :=
  ⟨by decide, by decide, size_class_monotone 40 100 (by decide) (by decide)⟩

/-- Setting a bit changes the bit read back at that index. -/
theorem getD_set_self (bm : List Bool) (i : Nat) (v d : Bool) (h : i < bm.length) :
    (bm.set i v).getD i d = v := by
  rw [List.getD_eq_getElem?_getD, List.getElem?_set_self (by simpa using h)]
  rfl

/-- Setting a bit leaves every other index unchanged. -/
theorem getD_set_ne (bm : List Bool) (i j : Nat) (v d : Bool) (h : i ≠ j) :
    (bm.set i v).getD j d = bm.getD j d := by
  rw [List.getD_eq_getElem?_getD, List.getElem?_set_ne h, ← List.getD_eq_getElem?_getD]

/-- Marking a free bit used raises the used count by one. -/
theorem count_true_set_true (bm : List Bool) (i : Nat)
    (h : i < bm.length) (hfree : bm.getD i false = false) :
    (bm.set i true).count true = bm.count true + 1 := by
  have hgi : bm[i] = false := by
    rw [← List.getD_eq_getElem bm false h]
    exact hfree
  rw [List.count_set true true bm i h]
  simp [hgi]

/-- Marking a free bit used lowers the free count by one. -/
theorem count_false_set_true (bm : List Bool) (i : Nat)
    (h : i < bm.length) (hfree : bm.getD i false = false) :
    (bm.set i true).count false + 1 = bm.count false := by
  have hgi : bm[i] = false := by
    rw [← List.getD_eq_getElem bm false h]
    exact hfree
  have hpos : 0 < bm.count false := by
    rw [List.count_pos_iff]
    exact hgi ▸ List.getElem_mem h
  rw [List.count_set true false bm i h]
  simp [hgi]
  omega

/-- Clearing a used bit lowers the used count by one. -/
theorem count_true_set_false (bm : List Bool) (i : Nat)
    (hset : bm.getD i false = true) :
    (bm.set i false).count true + 1 = bm.count true := by
  have h : i < bm.length := by
    by_contra hn
    rw [List.getD_eq_default _ _ (by omega)] at hset
    exact Bool.noConfusion hset
  have hgi : bm[i] = true := by
    rw [← List.getD_eq_getElem bm false h]
    exact hset
  have hpos : 0 < bm.count true := by
    rw [List.count_pos_iff]
    exact hgi ▸ List.getElem_mem h
  rw [List.count_set false true bm i h]
  simp [hgi]
  omega

/-- What a successful scan guarantees: the run lies inside the tracker
and every bit of it is free. -/
theorem bitmap_scan_some (bm : List Bool) (cnt idx : Nat)
    (h : bitmap_scan bm cnt = some idx) :
    idx + cnt ≤ bm.length ∧ ∀ j, j < cnt → bm.getD (idx + j) false = false := by
  have hp := List.find?_some h
  rw [bits_free] at hp
  simp only [Bool.and_eq_true, decide_eq_true_eq, List.all_eq_true, List.mem_range,
    Bool.not_eq_true'] at hp
  refine ⟨hp.1, fun j hj => ?_⟩
  have hlen : idx + j < bm.length := by omega
  have := hp.2 j hj
  rw [List.getD_eq_getElem bm true hlen] at this
  rw [List.getD_eq_getElem bm false hlen]
  exact this

/-- A failed scan means no run of cnt free bits exists anywhere. -/
theorem bitmap_scan_none (bm : List Bool) (cnt : Nat) (hc : 0 < cnt)
    (h : bitmap_scan bm cnt = none) :
    ∀ i, bits_free bm i cnt = false := by
  intro i
  by_cases hi : i < bm.length
  · have := List.find?_eq_none.mp h i (by simpa using hi)
    simpa using this
  · rw [bits_free]
    simp only [Bool.and_eq_false_iff, decide_eq_false_iff_not]
    left
    omega

/-- If a run of cnt free bits exists, the scan finds one. -/
theorem bitmap_scan_found (bm : List Bool) (cnt i : Nat) (hc : 0 < cnt)
    (h : bits_free bm i cnt = true) :
    ∃ idx, bitmap_scan bm cnt = some idx := by
  have hlen : i + cnt ≤ bm.length := by
    rw [bits_free] at h
    simp only [Bool.and_eq_true, decide_eq_true_eq] at h
    exact h.1
  have hsome : (bitmap_scan bm cnt).isSome := by
    rw [bitmap_scan, List.find?_isSome]
    exact ⟨i, by simp only [List.mem_range]; omega, h⟩
  exact Option.isSome_iff_exists.mp hsome

/-- The run-setting loop preserves the tracker length. -/
theorem set_run_length (bm : List Bool) (s c : Nat) (v : Bool) :
    (set_run bm s c v).length = bm.length := by
  induction c generalizing bm s with
  | zero => rfl
  | succ c ih =>
    rw [set_run, ih]
    simp

/-- Bits outside the written run keep their value. -/
theorem set_run_getD_out (bm : List Bool) (s c : Nat) (v : Bool) (i : Nat) (d : Bool)
    (h : i < s ∨ s + c ≤ i) :
    (set_run bm s c v).getD i d = bm.getD i d := by
  induction c generalizing bm s with
  | zero => rfl
  | succ c ih =>
    rw [set_run, ih _ _ (by omega), getD_set_ne _ _ _ _ _ (by omega)]

/-- Bits inside the written run take the written value. -/
theorem set_run_getD_in (bm : List Bool) (s c : Nat) (v : Bool) (i : Nat) (d : Bool)
    (hi : s ≤ i) (hic : i < s + c) (hlen : i < bm.length) :
    (set_run bm s c v).getD i d = v := by
  induction c generalizing bm s with
  | zero => omega
  | succ c ih =>
    rw [set_run]
    by_cases hs : i = s
    · subst hs
      rw [set_run_getD_out _ _ _ _ _ _ (by omega), getD_set_self _ _ _ _ hlen]
    · exact ih (bm.set s v) (s + 1) (by omega) (by omega) (by simpa using hlen)

/-- What palloc does when the pool still has a free frame. -/
theorem palloc_of_free (p : pool) (h : 0 < p.pool_bitmap.count false) :
    ∃ idx, idx < p.pool_bitmap.length ∧ p.pool_bitmap.getD idx false = false ∧
      palloc p = (some (idx * PG_SIZE + p.phy_addr_start),
        { p with pool_bitmap := bitmap_set p.pool_bitmap idx true }) := by
  have hmem : false ∈ p.pool_bitmap := List.count_pos_iff.mp h
  obtain ⟨n, hn, hbn⟩ := List.mem_iff_getElem.mp hmem
  have hfree : bits_free p.pool_bitmap n 1 = true := by
    rw [bits_free]
    simp only [Bool.and_eq_true, decide_eq_true_eq, List.all_eq_true, List.mem_range,
      Bool.not_eq_true']
    constructor
    · omega
    · intro j hj
      have hj0 : j = 0 := by omega
      subst hj0
      rw [Nat.add_zero, List.getD_eq_getElem p.pool_bitmap true hn]
      exact hbn
  obtain ⟨idx, hidx⟩ := bitmap_scan_found _ 1 n (by omega) hfree
  have hspec := bitmap_scan_some _ _ _ hidx
  refine ⟨idx, by omega, ?_, ?_⟩
  · have := hspec.2 0 (by omega)
    simpa using this
  · rw [palloc, hidx]

/-- What palloc does on an exhausted pool. -/
theorem palloc_exhausted (p : pool) (h : p.pool_bitmap.count false = 0) :
    palloc p = (none, p) := by
  have hscan : bitmap_scan p.pool_bitmap 1 = none := by
    rw [bitmap_scan, List.find?_eq_none]
    intro i hi
    rw [List.mem_range] at hi
    rw [bits_free]
    simp only [Bool.and_eq_true, decide_eq_true_eq, List.all_eq_true, List.mem_range,
      Bool.not_eq_true', not_and]
    intro _ hall
    have hnm : false ∉ p.pool_bitmap := List.count_eq_zero.mp h
    have h0 := hall 0 (by omega)
    rw [Nat.add_zero, List.getD_eq_getElem p.pool_bitmap true hi] at h0
    exact hnm (h0 ▸ List.getElem_mem hi)
  rw [palloc, hscan]

/-- Writing back through the pool pointer updates exactly that pool. -/
theorem pool_of_set_pool (pf : pool_flags) (p : pool) (st : MemState) :
    pool_of pf (set_pool pf p st) = p := by
  cases pf <;> rfl

/-- The pool write leaves the page table untouched. -/
theorem set_pool_pte (pf : pool_flags) (p : pool) (st : MemState) :
    (set_pool pf p st).pte_mem = st.pte_mem := by
  cases pf <;> rfl

/-- The pool write leaves the directory untouched. -/
theorem set_pool_pde (pf : pool_flags) (p : pool) (st : MemState) :
    (set_pool pf p st).pde_present = st.pde_present := by
  cases pf <;> rfl

/-- The pool write leaves the kernel virtual tracker untouched. -/
theorem set_pool_kvbm (pf : pool_flags) (p : pool) (st : MemState) :
    (set_pool pf p st).kernel_vaddr_bm = st.kernel_vaddr_bm := by
  cases pf <;> rfl

/-- The pool write leaves the running task untouched. -/
theorem set_pool_cur (pf : pool_flags) (p : pool) (st : MemState) :
    (set_pool pf p st).cur = st.cur := by
  cases pf <;> rfl

/-- The pool write leaves the arena headers untouched. -/
theorem set_pool_arenas (pf : pool_flags) (p : pool) (st : MemState) :
    (set_pool pf p st).arenas = st.arenas := by
  cases pf <;> rfl

/-- A page-table write does not move the pools. -/
theorem pool_of_pte_update (pf : pool_flags) (st : MemState) (f : Nat → Nat) :
    pool_of pf { st with pte_mem := f } = pool_of pf st := by
  cases pf <;> rfl

/-- page_table_add when the directory entry is present and the table
entry is absent: exactly one table entry is written. -/
theorem page_table_add_present (vaddr p : Nat) (st : MemState)
    (hpde : st.pde_present (PDE_IDX vaddr) = true)
    (hpte : ¬st.pte_mem (vpn vaddr) &&& 1 = 1) :
    page_table_add vaddr p st =
      some { st with pte_mem := upd st.pte_mem (vpn vaddr) (p ||| 7) } := by
  rw [page_table_add, if_pos hpde, if_neg hpte]


/-- One failing step of the malloc_page loop: palloc finds no frame, the
loop returns NULL at once with the state as it stands. -/
theorem malloc_page_loop_fail (pf : pool_flags) (vaddr c : Nat) (st : MemState)
    (hp : palloc (pool_of pf st) = (none, pool_of pf st)) :
    malloc_page_loop pf vaddr (c + 1) st = some (false, st) := by
  simp only [malloc_page_loop, hp]

/-- One succeeding step of the malloc_page loop: a frame is found and its
mapping installs, and the loop continues on the rest. -/
theorem malloc_page_loop_step (pf : pool_flags) (vaddr c : Nat) (st : MemState)
    (phy : Nat) (p1 : pool) (st2 : MemState)
    (hp : palloc (pool_of pf st) = (some phy, p1))
    (ha : page_table_add vaddr phy (set_pool pf p1 st) = some st2) :
    malloc_page_loop pf vaddr (c + 1) st = malloc_page_loop pf (vaddr + PG_SIZE) c st2 := by
  simp only [malloc_page_loop, hp, ha]

/-- After the frame-and-map loop of malloc_page runs out of frames midway
(the pool held only k frames and more pages than that were requested),
the loop reports failure and rolls nothing back: every frame it took
stays taken, every mapping it installed stays installed, and no other
state changes. -/
theorem malloc_loop_partial (pf : pool_flags) (k : Nat) :
    ∀ (cnt vaddr : Nat) (st : MemState),
      (pool_of pf st).pool_bitmap.count false = k →
      k < cnt →
      vaddr + cnt * 4096 ≤ 2 ^ 32 →
      (∀ j, j < cnt → st.pde_present (PDE_IDX (vaddr + j * 4096)) = true) →
      (∀ j, j < cnt → ¬st.pte_mem (vpn (vaddr + j * 4096)) &&& 1 = 1) →
      ∃ st', malloc_page_loop pf vaddr cnt st = some (false, st') ∧
        (pool_of pf st').pool_bitmap.count false = 0 ∧
        (pool_of pf st').pool_bitmap.count true = (pool_of pf st).pool_bitmap.count true + k ∧
        (∀ j, j < k → st'.pte_mem (vpn (vaddr + j * 4096)) &&& 1 = 1) ∧
        (∀ w, (∀ j, j < k → w ≠ vpn (vaddr + j * 4096)) → st'.pte_mem w = st.pte_mem w) ∧
        st'.pde_present = st.pde_present ∧
        st'.kernel_vaddr_bm = st.kernel_vaddr_bm ∧
        st'.cur = st.cur ∧
        st'.arenas = st.arenas := by
  induction k with
  | zero =>
    intro cnt vaddr st hk hkc hwrap hpde hpte
    obtain ⟨c, rfl⟩ : ∃ c, cnt = c + 1 := ⟨cnt - 1, by omega⟩
    exact ⟨st, malloc_page_loop_fail pf vaddr c st (palloc_exhausted _ hk), hk,
      by omega, by omega, fun w _ => rfl, rfl, rfl, rfl, rfl⟩
  | succ k ih =>
    intro cnt vaddr st hk hkc hwrap hpde hpte
    obtain ⟨c, rfl⟩ : ∃ c, cnt = c + 1 := ⟨cnt - 1, by omega⟩
    obtain ⟨idx, hlt, hfree, hpalloc⟩ := palloc_of_free (pool_of pf st) (by omega)
    have hv0 : vaddr + 0 * 4096 = vaddr := by omega
    have hpde0 : st.pde_present (PDE_IDX vaddr) = true := by
      have := hpde 0 (by omega)
      rwa [hv0] at this
    have hpte0 : ¬st.pte_mem (vpn vaddr) &&& 1 = 1 := by
      have := hpte 0 (by omega)
      rwa [hv0] at this
    set phy := idx * PG_SIZE + (pool_of pf st).phy_addr_start with hphy
    set p1 : pool := { pool_of pf st with pool_bitmap := bitmap_set (pool_of pf st).pool_bitmap idx true } with hp1
    set st1 : MemState := set_pool pf p1 st with hst1
    set st2 : MemState := { st1 with pte_mem := upd st1.pte_mem (vpn vaddr) (phy ||| 7) } with hst2
    have hadd : page_table_add vaddr phy st1 = some st2 := by
      rw [hst2]
      apply page_table_add_present
      · rw [hst1, set_pool_pde]
        exact hpde0
      · rw [hst1, set_pool_pte]
        exact hpte0
    have hst2pte : st2.pte_mem = upd st1.pte_mem (vpn vaddr) (phy ||| 7) := by
      rw [hst2]
    have hst1pte : st1.pte_mem = st.pte_mem := by
      rw [hst1]
      exact set_pool_pte pf p1 st
    have hst2pde : st2.pde_present = st.pde_present := by
      rw [hst2, hst1]
      exact set_pool_pde pf p1 st
    have hst2kvbm : st2.kernel_vaddr_bm = st.kernel_vaddr_bm := by
      rw [hst2, hst1]
      exact set_pool_kvbm pf p1 st
    have hst2cur : st2.cur = st.cur := by
      rw [hst2, hst1]
      exact set_pool_cur pf p1 st
    have hst2arenas : st2.arenas = st.arenas := by
      rw [hst2, hst1]
      exact set_pool_arenas pf p1 st
    have hst2pool : pool_of pf st2 = p1 := by
      rw [hst2, pool_of_pte_update, hst1, pool_of_set_pool]
    have hp1bm : p1.pool_bitmap = (pool_of pf st).pool_bitmap.set idx true := by
      rw [hp1]
      rfl
    have hdist : ∀ j, j < c → vpn (vaddr + (j + 1) * 4096) ≠ vpn vaddr := by
      intro j hj
      have h1 : vpn (vaddr + (j + 1) * 4096) = vaddr / 4096 + (j + 1) :=
        vpn_add vaddr (j + 1) (by omega)
      have h2 : vpn vaddr = vaddr / 4096 := by
        have := vpn_add vaddr 0 (by omega)
        rwa [hv0, Nat.add_zero] at this
      omega
    have hcount : (pool_of pf st2).pool_bitmap.count false = k := by
      rw [hst2pool, hp1bm]
      have := count_false_set_true (pool_of pf st).pool_bitmap idx hlt hfree
      omega
    have hpde2 : ∀ j, j < c → st2.pde_present (PDE_IDX (vaddr + 4096 + j * 4096)) = true := by
      intro j hj
      rw [hst2pde, show vaddr + 4096 + j * 4096 = vaddr + (j + 1) * 4096 from by ring]
      exact hpde (j + 1) (by omega)
    have hpte2 : ∀ j, j < c → ¬st2.pte_mem (vpn (vaddr + 4096 + j * 4096)) &&& 1 = 1 := by
      intro j hj
      rw [hst2pte, show vaddr + 4096 + j * 4096 = vaddr + (j + 1) * 4096 from by ring,
        upd_other _ _ _ _ (hdist j hj), hst1pte]
      exact hpte (j + 1) (by omega)
    obtain ⟨st', hloop, hc0, hct, hmaps, hframe, hpdeq, hkvbm, hcur, harenas⟩ :=
      ih c (vaddr + 4096) st2 hcount (by omega) (by omega) hpde2 hpte2
    have hwfr : ∀ w, (∀ j, j < k → w ≠ vpn (vaddr + 4096 + j * 4096)) →
        st'.pte_mem w = st2.pte_mem w := hframe
    refine ⟨st', ?_, hc0, ?_, ?_, ?_, ?_, ?_, ?_, ?_⟩
    · rw [malloc_page_loop_step pf vaddr c st phy p1 st2 hpalloc (hst1 ▸ hadd)]
      exact hloop
    · rw [hct, hst2pool, hp1bm, count_true_set_true _ _ hlt hfree]
      omega
    · intro j hj
      cases j with
      | zero =>
        rw [hv0]
        have hw : st'.pte_mem (vpn vaddr) = st2.pte_mem (vpn vaddr) := by
          apply hwfr
          intro j hjk
          rw [show vaddr + 4096 + j * 4096 = vaddr + (j + 1) * 4096 from by ring]
          exact (hdist j (by omega)).symm
        rw [hw, hst2pte, upd_self]
        exact pte_present_bit phy
      | succ j' =>
        rw [show vaddr + (j' + 1) * 4096 = vaddr + 4096 + j' * 4096 from by ring]
        exact hmaps j' (by omega)
    · intro w hw
      have h1 : st'.pte_mem w = st2.pte_mem w := by
        apply hwfr
        intro j hjk
        rw [show vaddr + 4096 + j * 4096 = vaddr + (j + 1) * 4096 from by ring]
        exact hw (j + 1) (by omega)
      have h0 : w ≠ vpn vaddr := by
        have := hw 0 (by omega)
        rwa [hv0] at this
      rw [h1, hst2pte, upd_other _ _ _ _ h0, hst1pte]
    · rw [hpdeq, hst2pde]
    · rw [hkvbm, hst2kvbm]
    · rw [hcur, hst2cur]
    · rw [harenas, hst2arenas]

/-- The tracker write leaves the pools untouched. -/
theorem pool_of_set_vbm (pf : pool_flags) (bm : List Bool) (st : MemState) :
    pool_of pf (set_vbm pf bm st) = pool_of pf st := by
  cases pf <;> rfl

/-- The tracker write leaves the directory untouched. -/
theorem set_vbm_pde (pf : pool_flags) (bm : List Bool) (st : MemState) :
    (set_vbm pf bm st).pde_present = st.pde_present := by
  cases pf <;> rfl

/-- The tracker write leaves the page table untouched. -/
theorem set_vbm_pte (pf : pool_flags) (bm : List Bool) (st : MemState) :
    (set_vbm pf bm st).pte_mem = st.pte_mem := by
  cases pf <;> rfl

/-- Reading back the written tracker. -/
theorem vbm_of_set_vbm (pf : pool_flags) (bm : List Bool) (st : MemState) :
    vbm_of pf (set_vbm pf bm st) = bm := by
  cases pf <;> rfl

/-- The tracker selector only depends on the kernel tracker and the
running task. -/
theorem vbm_of_congr (pf : pool_flags) (s1 s2 : MemState)
    (h1 : s1.kernel_vaddr_bm = s2.kernel_vaddr_bm) (h2 : s1.cur = s2.cur) :
    vbm_of pf s1 = vbm_of pf s2 := by
  cases pf
  · exact h1
  · rw [vbm_of, vbm_of, h2]

/-- What vaddr_get does when the scan finds a run (and, for a user
reservation, the top-of-user-space assertion passes). -/
theorem vaddr_get_found (pf : pool_flags) (pg_cnt : Nat) (st : MemState) (idx : Nat)
    (hscan : bitmap_scan (vbm_of pf st) pg_cnt = some idx)
    (huser : pf = .PF_USER → vstart_of pf st + idx * PG_SIZE < 0xc0000000 - PG_SIZE) :
    vaddr_get pf pg_cnt st =
      some (some (vstart_of pf st + idx * PG_SIZE),
        set_vbm pf (set_run (vbm_of pf st) idx pg_cnt true) st) := by
  cases pf with
  | PF_KERNEL =>
    simp only [vaddr_get, vbm_of] at hscan ⊢
    rw [hscan]
    rfl
  | PF_USER =>
    simp only [vaddr_get, vbm_of] at hscan ⊢
    simp only [hscan]
    simp only [vstart_of] at huser
    rw [if_pos (huser trivial)]
    rfl

/-- How malloc_page assembles a mid-loop failure: the reservation
succeeded, the loop failed, the whole call reports NULL with the state
the loop left behind. -/
theorem malloc_page_eq_of_loop_fail (pf : pool_flags) (pg_cnt : Nat) (st : MemState)
    (h0 : 0 < pg_cnt ∧ pg_cnt < 3840) (v : Nat) (st1 st2 : MemState)
    (hv : vaddr_get pf pg_cnt st = some (some v, st1))
    (hl : malloc_page_loop pf v pg_cnt st1 = some (false, st2)) :
    malloc_page pf pg_cnt st = some (none, st2) := by
  simp only [malloc_page]
  rw [if_pos h0]
  simp only [hv, hl]

/-- C2: a multi-page malloc_page call whose frame allocation fails after
k pages were already mapped (the pool held exactly k free frames, fewer
than requested) returns NULL, and nothing is rolled back: the whole run
of reserved virtual-page bits stays set, the k installed mappings stay
installed and the k taken frames stay taken. -/
theorem malloc_page_partial_failure_no_rollback
    (pf : pool_flags) (pg_cnt k idx : Nat) (st : MemState)
    (hcnt : 0 < pg_cnt ∧ pg_cnt < 3840)
    (hscan : bitmap_scan (vbm_of pf st) pg_cnt = some idx)
    (huser : pf = .PF_USER → vstart_of pf st + idx * PG_SIZE < 0xc0000000 - PG_SIZE)
    (hk : (pool_of pf st).pool_bitmap.count false = k)
    (hkc : k < pg_cnt)
    (hwrap : vstart_of pf st + idx * PG_SIZE + pg_cnt * 4096 ≤ 2 ^ 32)
    (hpde : ∀ j, j < pg_cnt →
      st.pde_present (PDE_IDX (vstart_of pf st + idx * PG_SIZE + j * 4096)) = true)
    (hpte : ∀ j, j < pg_cnt →
      ¬st.pte_mem (vpn (vstart_of pf st + idx * PG_SIZE + j * 4096)) &&& 1 = 1) :
    ∃ st', malloc_page pf pg_cnt st = some (none, st') ∧
      (∀ j, j < pg_cnt → (vbm_of pf st').getD (idx + j) false = true) ∧
      (pool_of pf st').pool_bitmap.count false = 0 ∧
      (pool_of pf st').pool_bitmap.count true = (pool_of pf st).pool_bitmap.count true + k ∧
      (∀ j, j < k →
        st'.pte_mem (vpn (vstart_of pf st + idx * PG_SIZE + j * 4096)) &&& 1 = 1) := by
  set va := vstart_of pf st + idx * PG_SIZE with hva
  set st1 := set_vbm pf (set_run (vbm_of pf st) idx pg_cnt true) st with hst1
  have hvg : vaddr_get pf pg_cnt st = some (some va, st1) :=
    vaddr_get_found pf pg_cnt st idx hscan huser
  obtain ⟨st2, hloop, hc0, hct, hmaps, _, _, hkvbm, hcur, _⟩ :=
    malloc_loop_partial pf k pg_cnt va st1
      (by rw [hst1, pool_of_set_vbm]; exact hk)
      hkc hwrap
      (by rw [hst1, set_vbm_pde]; exact hpde)
      (by rw [hst1, set_vbm_pte]; exact hpte)
  have hlen := (bitmap_scan_some _ _ _ hscan).1
  refine ⟨st2, malloc_page_eq_of_loop_fail pf pg_cnt st hcnt va st1 st2 hvg hloop, ?_, hc0, ?_, hmaps⟩
  · intro j hj
    have hbm : vbm_of pf st2 = set_run (vbm_of pf st) idx pg_cnt true := by
      rw [vbm_of_congr pf st2 st1 hkvbm hcur, hst1, vbm_of_set_vbm]
    rw [hbm]
    exact set_run_getD_in _ _ _ _ _ _ (by omega) (by omega) (by omega)
  · rw [hct, hst1, pool_of_set_vbm]

/-- Witness for the no-rollback theorem: two pages requested from a
kernel pool holding a single frame. -/
theorem malloc_page_partial_failure_no_rollback_witness :
    (0 < 2 ∧ 2 < 3840) ∧
    bitmap_scan (vbm_of .PF_KERNEL stOneFrame) 2 = some 0 ∧
    (pool_of .PF_KERNEL stOneFrame).pool_bitmap.count false = 1 ∧
    ∃ st', malloc_page .PF_KERNEL 2 stOneFrame = some (none, st') ∧
      (∀ j, j < 2 → (vbm_of .PF_KERNEL st').getD (0 + j) false = true) ∧
      (pool_of .PF_KERNEL st').pool_bitmap.count false = 0 ∧
      (pool_of .PF_KERNEL st').pool_bitmap.count true =
        (pool_of .PF_KERNEL stOneFrame).pool_bitmap.count true + 1 ∧
      (∀ j, j < 1 →
        st'.pte_mem (vpn (vstart_of .PF_KERNEL stOneFrame + 0 * PG_SIZE + j * 4096)) &&& 1 = 1) :=
  ⟨by decide, by decide, by decide,
    malloc_page_partial_failure_no_rollback .PF_KERNEL 2 1 0 stOneFrame
      (by decide) (by decide) (by decide) (by decide) (by decide)
      (by decide) (by decide) (by decide)⟩

/-- C7: a kernel-pool reservation of page_count virtual pages.  When a
run of that many contiguous free bits exists, the scan finds one, those
bits are marked used, and the returned address is the tracker base plus
the start bit index times the page size.  When no free run exists (every
in-range start position fails), the call returns NULL and the tracker
bitmap is left unchanged. -/
theorem vaddr_get_kernel_spec (st : MemState) (pg_cnt : Nat) (hc : 0 < pg_cnt) :
    ((∃ i, bits_free st.kernel_vaddr_bm i pg_cnt = true) →
      ∃ idx, bitmap_scan st.kernel_vaddr_bm pg_cnt = some idx ∧
        vaddr_get .PF_KERNEL pg_cnt st =
          some (some (st.kernel_vaddr_start + idx * PG_SIZE),
            { st with kernel_vaddr_bm := set_run st.kernel_vaddr_bm idx pg_cnt true }) ∧
        (∀ j, j < pg_cnt →
          (set_run st.kernel_vaddr_bm idx pg_cnt true).getD (idx + j) false = true)) ∧
    ((∀ i, i < st.kernel_vaddr_bm.length → bits_free st.kernel_vaddr_bm i pg_cnt = false) →
      vaddr_get .PF_KERNEL pg_cnt st = some (none, st)) := by
  constructor
  · rintro ⟨i, hi⟩
    obtain ⟨idx, hidx⟩ := bitmap_scan_found _ _ i hc hi
    have hsp := bitmap_scan_some _ _ _ hidx
    refine ⟨idx, hidx, ?_, ?_⟩
    · exact vaddr_get_found .PF_KERNEL pg_cnt st idx hidx (by intro h; cases h)
    · intro j hj
      have hlen : idx + j < st.kernel_vaddr_bm.length := by omega
      exact set_run_getD_in _ _ _ _ _ _ (by omega) (by omega) hlen
  · intro hno
    have hnone : bitmap_scan st.kernel_vaddr_bm pg_cnt = none := by
      rw [bitmap_scan, List.find?_eq_none]
      intro i hi
      rw [List.mem_range] at hi
      rw [hno i hi]
      simp
    simp only [vaddr_get, hnone]

/-- Witness for the reservation theorem: success on an empty tracker and
failure on a full one. -/
theorem vaddr_get_kernel_spec_witness :
    (0 < 2 ∧ (∃ i, bits_free st0.kernel_vaddr_bm i 2 = true) ∧
      ∃ idx, bitmap_scan st0.kernel_vaddr_bm 2 = some idx ∧
        vaddr_get .PF_KERNEL 2 st0 =
          some (some (st0.kernel_vaddr_start + idx * PG_SIZE),
            { st0 with kernel_vaddr_bm := set_run st0.kernel_vaddr_bm idx 2 true }) ∧
        (∀ j, j < 2 →
          (set_run st0.kernel_vaddr_bm idx 2 true).getD (idx + j) false = true)) ∧
    ((∀ i, i < stVFull.kernel_vaddr_bm.length → bits_free stVFull.kernel_vaddr_bm i 2 = false) ∧
      vaddr_get .PF_KERNEL 2 stVFull = some (none, stVFull)) :=
  ⟨⟨by decide, ⟨0, by decide⟩,
    (vaddr_get_kernel_spec st0 2 (by decide)).1 ⟨0, by decide⟩⟩,
   ⟨by decide, (vaddr_get_kernel_spec stVFull 2 (by decide)).2 (by decide)⟩⟩

/-- The tail of get_a_page when a frame is available and the mapping slot
is empty: one frame is taken, the mapping installs, vaddr comes back. -/
theorem get_a_page_tail_ok (pf : pool_flags) (vaddr : Nat) (st : MemState)
    (hpool : 0 < (pool_of pf st).pool_bitmap.count false)
    (hpde : st.pde_present (PDE_IDX vaddr) = true)
    (hpte : ¬st.pte_mem (vpn vaddr) &&& 1 = 1) :
    ∃ st2, get_a_page_tail pf vaddr st = some (some vaddr, st2) ∧
      st2.pte_mem (vpn vaddr) &&& 1 = 1 ∧
      (pool_of pf st2).pool_bitmap.count true = (pool_of pf st).pool_bitmap.count true + 1 ∧
      st2.kernel_vaddr_bm = st.kernel_vaddr_bm ∧
      st2.cur = st.cur := by
  obtain ⟨idx, hlt, hfree, hpalloc⟩ := palloc_of_free (pool_of pf st) hpool
  set phy := idx * PG_SIZE + (pool_of pf st).phy_addr_start with hphy
  set p1 : pool := { pool_of pf st with pool_bitmap := bitmap_set (pool_of pf st).pool_bitmap idx true } with hp1
  set st1 : MemState := set_pool pf p1 st with hst1
  set st2 : MemState := { st1 with pte_mem := upd st1.pte_mem (vpn vaddr) (phy ||| 7) } with hst2
  have hadd : page_table_add vaddr phy st1 = some st2 := by
    rw [hst2]
    apply page_table_add_present
    · rw [hst1, set_pool_pde]
      exact hpde
    · rw [hst1, set_pool_pte]
      exact hpte
  refine ⟨st2, ?_, ?_, ?_, ?_, ?_⟩
  · simp only [get_a_page_tail, hpalloc]
    rw [← hst1]
    simp only [hadd]
  · rw [hst2]
    show upd st1.pte_mem (vpn vaddr) (phy ||| 7) (vpn vaddr) &&& 1 = 1
    rw [upd_self]
    exact pte_present_bit phy
  · have hpool2 : pool_of pf st2 = p1 := by
      rw [hst2, pool_of_pte_update, hst1, pool_of_set_pool]
    rw [hpool2, hp1]
    show ((pool_of pf st).pool_bitmap.set idx true).count true = _
    rw [count_true_set_true _ _ hlt hfree]
  · rw [hst2, hst1]
    exact set_pool_kvbm pf p1 st
  · rw [hst2, hst1]
    exact set_pool_cur pf p1 st

/-- C6: get_a_page with a matching caller context and pool kind (user
task with the user pool, kernel thread with the kernel pool) marks the
tracker bit for vaddr, takes one frame, installs the mapping and returns
vaddr; with mixed kinds it halts fatally. -/
theorem get_a_page_spec (st : MemState) (vaddr : Nat) :
    (st.cur.pgdir = true → get_a_page .PF_KERNEL vaddr st = none) ∧
    (st.cur.pgdir = false → get_a_page .PF_USER vaddr st = none) ∧
    (st.cur.pgdir = true →
      0 < sub32 vaddr st.cur.userprog_vaddr_start / PG_SIZE →
      sub32 vaddr st.cur.userprog_vaddr_start / PG_SIZE < st.cur.userprog_vaddr_bm.length →
      0 < st.user_pool.pool_bitmap.count false →
      st.pde_present (PDE_IDX vaddr) = true →
      ¬st.pte_mem (vpn vaddr) &&& 1 = 1 →
      ∃ st2, get_a_page .PF_USER vaddr st = some (some vaddr, st2) ∧
        st2.cur.userprog_vaddr_bm.getD (sub32 vaddr st.cur.userprog_vaddr_start / PG_SIZE) false = true ∧
        st2.pte_mem (vpn vaddr) &&& 1 = 1 ∧
        st2.user_pool.pool_bitmap.count true = st.user_pool.pool_bitmap.count true + 1) ∧
    (st.cur.pgdir = false →
      0 < sub32 vaddr st.kernel_vaddr_start / PG_SIZE →
      sub32 vaddr st.kernel_vaddr_start / PG_SIZE < st.kernel_vaddr_bm.length →
      0 < st.kernel_pool.pool_bitmap.count false →
      st.pde_present (PDE_IDX vaddr) = true →
      ¬st.pte_mem (vpn vaddr) &&& 1 = 1 →
      ∃ st2, get_a_page .PF_KERNEL vaddr st = some (some vaddr, st2) ∧
        st2.kernel_vaddr_bm.getD (sub32 vaddr st.kernel_vaddr_start / PG_SIZE) false = true ∧
        st2.pte_mem (vpn vaddr) &&& 1 = 1 ∧
        st2.kernel_pool.pool_bitmap.count true = st.kernel_pool.pool_bitmap.count true + 1) := by
  refine ⟨?_, ?_, ?_, ?_⟩
  · intro hp
    simp only [get_a_page]
    rw [if_neg (by simp), if_neg (by simp [hp])]
  · intro hp
    simp only [get_a_page]
    rw [if_neg (by simp [hp]), if_neg (by simp)]
  · intro hp hbit hlen hpool hpde hpte
    set bit_idx := sub32 vaddr st.cur.userprog_vaddr_start / PG_SIZE with hbi
    set st1 : MemState := { st with cur := { st.cur with
      userprog_vaddr_bm := bitmap_set st.cur.userprog_vaddr_bm bit_idx true } } with hs1
    obtain ⟨st2, htail, hpte2, hcnt2, hkvbm2, hcur2⟩ :=
      get_a_page_tail_ok .PF_USER vaddr st1 hpool hpde hpte
    refine ⟨st2, ?_, ?_, hpte2, hcnt2⟩
    · simp only [get_a_page]
      rw [if_pos ⟨hp, trivial⟩, if_pos hbit]
      rw [← hs1]
      exact htail
    · rw [hcur2, hs1]
      show (st.cur.userprog_vaddr_bm.set bit_idx true).getD bit_idx false = true
      exact getD_set_self _ _ _ _ hlen
  · intro hp hbit hlen hpool hpde hpte
    set bit_idx := sub32 vaddr st.kernel_vaddr_start / PG_SIZE with hbi
    set st1 : MemState := { st with
      kernel_vaddr_bm := bitmap_set st.kernel_vaddr_bm bit_idx true } with hs1
    obtain ⟨st2, htail, hpte2, hcnt2, hkvbm2, hcur2⟩ :=
      get_a_page_tail_ok .PF_KERNEL vaddr st1 hpool hpde hpte
    refine ⟨st2, ?_, ?_, hpte2, hcnt2⟩
    · simp only [get_a_page]
      rw [if_neg (by simp [hp]), if_pos ⟨by simp [hp], trivial⟩, if_pos hbit]
      rw [← hs1]
      exact htail
    · rw [hkvbm2, hs1]
      show (st.kernel_vaddr_bm.set bit_idx true).getD bit_idx false = true
      exact getD_set_self _ _ _ _ hlen

/-- Witness for get_a_page: a kernel thread backing one heap page, and
the same thread denied a user-pool page. -/
theorem get_a_page_spec_witness :
    st0.cur.pgdir = false ∧
    get_a_page .PF_USER 0xc0101000 st0 = none ∧
    ∃ st2, get_a_page .PF_KERNEL 0xc0101000 st0 = some (some 0xc0101000, st2) ∧
      st2.kernel_vaddr_bm.getD (sub32 0xc0101000 st0.kernel_vaddr_start / PG_SIZE) false = true ∧
      st2.pte_mem (vpn 0xc0101000) &&& 1 = 1 ∧
      st2.kernel_pool.pool_bitmap.count true = st0.kernel_pool.pool_bitmap.count true + 1 :=
  ⟨rfl, (get_a_page_spec st0 0xc0101000).2.1 rfl,
    (get_a_page_spec st0 0xc0101000).2.2.2 rfl (by decide) (by decide)
      (by decide) (by decide) (by decide)⟩

/-- C5: the large path of sys_malloc behaves as specified (page count
ceil of size plus header over the page size, header stamped with no
descriptor, large set, that page count, pointer just past the header,
exactly that many frames taken), and on the kernel path sys_free then
returns exactly that many pages.  But for a user task whose backing frame
has bit 12 set, sys_free dies in the assertion of the mfree_page user
branch, which tests pg_phy_addr AND PG_SIZE (memory.c line 423) where the
kernel branch tests pg_phy_addr MOD PG_SIZE, and returns nothing: the
claim fails on the user pool through this slip. -/
theorem sys_malloc_large_free_user_panic :
    ((2000 + ARENA_SIZE + PG_SIZE - 1) / PG_SIZE = 1) ∧
    ((sys_malloc 2000 st0).map Prod.fst = some (some (0xc0100000 + ARENA_SIZE))) ∧
    (((sys_malloc 2000 st0).bind fun rs =>
        match rs.1 with
        | some r => sys_free r rs.2
        | none => none).map
          (fun st2 => (st2.kernel_pool.pool_bitmap.count true,
            st2.kernel_vaddr_bm.count true)) = some (0, 0)) ∧
    ((sys_malloc 2000 stUodd).map Prod.fst = some (some (0x8048000 + ARENA_SIZE))) ∧
    ((sys_malloc 2000 stUodd).map (fun rs =>
        ((rs.2.arenas 0x8048000).desc, (rs.2.arenas 0x8048000).cnt,
          (rs.2.arenas 0x8048000).large,
          rs.2.user_pool.pool_bitmap.count true)) =
      some (none, 1, true, stUodd.user_pool.pool_bitmap.count true + 1)) ∧
    (((sys_malloc 2000 stUodd).bind fun rs =>
        match rs.1 with
        | some r => sys_free r rs.2
        | none => none).isSome = false) :=
  ⟨by decide, by decide, by decide, by decide, by decide, by decide⟩

/-- C3: sys_free of a small-arena block.  On the kernel path the claim
holds: when the free-block count reaches blocks-per-arena every block of
the arena is unlinked (the class free list ends empty) and the single
backing page goes back to the pool (frame count and virtual count return
to zero); when the count stays below blocks-per-arena no page is
returned.  But for a user arena whose backing frame has bit 12 set, the
release step dies in the assertion of the mfree_page user branch
(pg_phy_addr AND PG_SIZE, memory.c line 423, a slip for MOD) and no page
is returned: the claim fails on the user pool. -/
theorem sys_free_small_arena_release :
    (((sys_malloc 100 st0).bind fun rs =>
        match rs.1 with
        | some r => sys_free r rs.2
        | none => none).map
          (fun st2 => (st2.kernel_pool.pool_bitmap.count true,
            (st2.k_block_descs.getD 3 default).free_list.length,
            st2.kernel_vaddr_bm.count true)) = some (0, 0, 0)) ∧
    (((sys_malloc 100 st0).bind fun rs1 =>
        match rs1.1 with
        | some r1 =>
          (sys_malloc 100 rs1.2).bind fun rs2 =>
            match rs2.1 with
            | some _ => (sys_free r1 rs2.2).map fun st3 =>
                (st3.kernel_pool.pool_bitmap.count true,
                  (st3.k_block_descs.getD 3 default).free_list.length,
                  (st3.arenas 0xc0100000).cnt)
            | none => none
        | none => none) = some (1, 30, 30)) ∧
    ((sys_malloc 100 stUodd).map Prod.fst = some (some (0x8048000 + ARENA_SIZE))) ∧
    ((sys_malloc 100 stUodd).map (fun rs =>
        ((rs.2.arenas 0x8048000).cnt,
          ((descs_of true rs.2).getD 3 default).blocks_per_arena)) =
      some ((PG_SIZE - ARENA_SIZE) / 128 - 1, (PG_SIZE - ARENA_SIZE) / 128)) ∧
    (((sys_malloc 100 stUodd).bind fun rs =>
        match rs.1 with
        | some r => sys_free r rs.2
        | none => none).isSome = false) :=
  ⟨by decide, by decide, by decide, by decide, by decide⟩
